import Mathlib

/-!
Verification development for the Triple-Barrier Labeling core of the
FinPattern-Engine repository (src/core/labeling/labeling_v22.py and
src/core/labeling/labeling.py).

Prices are modelled as rationals, timestamps as integers (nanoseconds),
bar indices as naturals.  Sides keep the source's integer encoding
(1 = long, -1 = short, anything else falls into the "both"/short-style
else branches exactly as the Python elif chains do).
-/

namespace FinPattern

/-- Tick record of a tick slice: timestamp in ns, bid, ask, and the
mid price column that the v2.2 enhancement step reads. -/
structure Tick where
  ts : ℤ
  bid : ℚ
  ask : ℚ
  mid : ℚ
deriving DecidableEq, Repr

/-- Result row of the v2.2 labeling kernel.  The numpy result row stores
(return, label, exit_time_ns, hit_type, volatility_used); exitPrice mirrors
the kernel's local variable of the same name, from which the return is
computed. -/
structure EventResult where
  ret : ℚ
  label : ℤ
  exitPrice : ℚ
  exitTime : ℤ
  hitType : ℤ
  vol : ℚ
deriving DecidableEq, Repr

/-! ## Volatility estimator: calculate_ewma_volatility -/

/-- Tail of the EWMA variance recursion of calculate_ewma_volatility:
given the previous variance, emit a·prev + (1−a)·r² for each return r. -/
def ewmaVarGo (a : ℚ) (prev : ℚ) : List ℚ → List ℚ
  | [] => []
  | r :: rest => (a * prev + (1 - a) * r ^ 2) :: ewmaVarGo a (a * prev + (1 - a) * r ^ 2) rest

/-- EWMA variance series of calculate_ewma_volatility:
var[0] = returns[0]², var[t] = a·var[t−1] + (1−a)·returns[t]². -/
def ewmaVar (returns : List ℚ) (a : ℚ) : List ℚ :=
  match returns with
  | [] => []
  | r :: rest => (r ^ 2) :: ewmaVarGo a (r ^ 2) rest

/-- Volatility series of calculate_ewma_volatility: the square root of the
EWMA variance series.  The numeric square root is passed as a parameter so
that the development stays executable; every claim below holds for an
arbitrary square-root function. -/
def calculateEwmaVolatility (sqrtFn : ℚ → ℚ) (returns : List ℚ) (a : ℚ) : List ℚ :=
  (ewmaVar returns a).map sqrtFn

/-! ## Per-event volatility selection in run() -/

/-- Arithmetic mean of a list, as numpy mean (sum divided by length;
0 on the empty list, which run() never hits for the ranges it uses). -/
def npMean (l : List ℚ) : ℚ := l.sum / l.length

/-- Mean of the python slice l[a:b]. -/
def sliceMean (l : List ℚ) (a b : ℕ) : ℚ := npMean ((l.drop a).take (b - a))

/-- Per-event volatility selection of run(): mean of ewma_vol[idx-L : idx]
when idx ≥ L, mean of ewma_vol[: idx+1] when 0 < idx < L, else the default
0.01.  Natural subtraction makes idx − L equal max(0, idx − L). -/
def eventVolatility (ewmaVol : List ℚ) (volLookback idx : ℕ) : ℚ :=
  if volLookback ≤ idx then sliceMean ewmaVol (idx - volLookback) idx
  else if 0 < idx then sliceMean ewmaVol 0 (idx + 1)
  else 1 / 100

/-- Modelled from the spec: the volatility the spec says is fed to the
barrier calculator — the mean of the EWMA volatility series over indices
max(0, i−L) .. i−1 for i > 0, a small default constant for i = 0.  Used
only to compare the spec's words with the code's eventVolatility. -/
def eventVolatilitySpec (ewmaVol : List ℚ) (volLookback idx : ℕ) : ℚ :=
  if 0 < idx then sliceMean ewmaVol (idx - volLookback) idx
  else 1 / 100

/-- Floor clamp applied by run() after the selection. -/
def eventVolatilityClamped (ewmaVol : List ℚ) (volLookback idx : ℕ) : ℚ :=
  max (eventVolatility ewmaVol volLookback idx) (1 / 1000)

/-! ## Bar-level scanner: apply_triple_barrier_v22 -/

/-- Per-bar barrier check of the v2.2 kernel loop.  Returns
some (hitType, exitPrice, sideAfter) when a condition fires, none
otherwise; the elif chain order is exactly the source's.  The final
else branch is the "both sides" logic, which also reassigns the side. -/
def checkBarV22 (entryPrice tpDist slDist : ℚ) (side : ℤ) (p : ℚ) :
    Option (ℤ × ℚ × ℤ) :=
  if side = 1 then
    if entryPrice + tpDist ≤ p then some (1, entryPrice + tpDist, 1)
    else if p ≤ entryPrice - slDist then some (-1, entryPrice - slDist, 1)
    else none
  else if side = -1 then
    if p ≤ entryPrice - tpDist then some (1, entryPrice - tpDist, -1)
    else if entryPrice + slDist ≤ p then some (-1, entryPrice + slDist, -1)
    else none
  else
    if entryPrice + tpDist ≤ p then some (1, entryPrice + tpDist, 1)
    else if p ≤ entryPrice - slDist then some (-1, entryPrice - slDist, 1)
    else if p ≤ entryPrice - tpDist then some (1, entryPrice - tpDist, -1)
    else if entryPrice + slDist ≤ p then some (-1, entryPrice + slDist, -1)
    else none

/-- Bar loop of the v2.2 kernel: starting at bar index t with the given
number of remaining iterations, break with none as soon as a bar's
timestamp exceeds the wall-clock timeout, otherwise return the first bar
whose check fires, together with its index. -/
def scanFrom (prices : List ℚ) (times : List ℤ) (timeoutTime : ℤ)
    (check : ℚ → Option (ℤ × ℚ × ℤ)) : ℕ → ℕ → Option (ℕ × ℤ × ℚ × ℤ)
  | _, 0 => none
  | t, fuel + 1 =>
    if timeoutTime < times.getD t 0 then none
    else
      match check (prices.getD t 0) with
      | some (h, ep, s) => some (t, h, ep, s)
      | none => scanFrom prices times timeoutTime check (t + 1) fuel

/-- One event of apply_triple_barrier_v22.  Events with
event_idx ≥ n_bars − 1 keep the all-zero result row; otherwise the kernel
scans bars event_idx+1 .. min(event_idx+timeout_bars, n_bars−1), stopping
early at the wall-clock timeout, and falls back to the timeout exit at the
bar-count cap when no barrier fired. -/
def labelEventV22 (prices : List ℚ) (times : List ℤ) (eventIdx : ℕ)
    (tpMult slMult : ℚ) (timeoutBars : ℕ) (timeoutSeconds : ℤ)
    (side : ℤ) (vol : ℚ) : EventResult :=
  if eventIdx + 1 < prices.length then
    let entryPrice := prices.getD eventIdx 0
    let entryTime := times.getD eventIdx 0
    let timeoutBarIdx := min (eventIdx + timeoutBars) (prices.length - 1)
    let timeoutTime := entryTime + timeoutSeconds * 1000000000
    match scanFrom prices times timeoutTime
        (checkBarV22 entryPrice (tpMult * vol) (slMult * vol) side)
        (eventIdx + 1) (timeoutBarIdx - eventIdx) with
    | some (t, h, ep, s) =>
      { ret := if s = 1 then (ep - entryPrice) / entryPrice
               else if s = -1 then (entryPrice - ep) / entryPrice
               else 0
        label := if h = 1 then 1 else if h = -1 then -1 else 0
        exitPrice := ep
        exitTime := times.getD t 0
        hitType := h
        vol := vol }
    | none =>
      let exitPrice := if timeoutBarIdx < prices.length then prices.getD timeoutBarIdx 0
                       else entryPrice
      let exitTime := if timeoutBarIdx < prices.length then times.getD timeoutBarIdx 0
                      else entryTime
      { ret := if side = 1 then (exitPrice - entryPrice) / entryPrice
               else if side = -1 then (entryPrice - exitPrice) / entryPrice
               else 0
        label := 0
        exitPrice := exitPrice
        exitTime := exitTime
        hitType := 0
        vol := vol }
  else
    { ret := 0, label := 0, exitPrice := 0, exitTime := 0, hitType := 0, vol := 0 }

/-! ## Tick-level refiner: first_hit_detection and enhance_with_tick_slices -/

/-- Per-tick condition of first_hit_detection, applied to the single tick
price the function receives (the mid price column).  Long checks TP then
SL against that price; every other side takes the short-style branch. -/
def tickCheckV22 (tpPrice slPrice : ℚ) (side : ℤ) (p : ℚ) : Option ℤ :=
  if side = 1 then
    if tpPrice ≤ p then some 1
    else if p ≤ slPrice then some (-1)
    else none
  else
    if p ≤ tpPrice then some 1
    else if slPrice ≤ p then some (-1)
    else none

/-- first_hit_detection of the v2.2 module: scan (price, time) ticks in
sequence; the first tick whose condition fires yields (hitType, barrier
level, tick time) — the exit price is the TP level on a TP hit and the SL
level on an SL hit, exactly as each return statement of the source; with
no hit the result is (0, last price, last time); on the empty slice it is
(0, entry price, 0). -/
def firstHitDetection (entryPrice tpPrice slPrice : ℚ) (side : ℤ) :
    List (ℚ × ℤ) → ℤ × ℚ × ℤ
  | [] => (0, entryPrice, 0)
  | (p, tm) :: rest =>
    match tickCheckV22 tpPrice slPrice side p with
    | some hb => (hb, if hb = 1 then tpPrice else slPrice, tm)
    | none =>
      match rest with
      | [] => (0, p, tm)
      | _ :: _ => firstHitDetection entryPrice tpPrice slPrice side rest

/-- One event of enhance_with_tick_slices: with no slice or an empty slice
the bar-level result stands; sides other than ±1 are skipped; otherwise
first_hit_detection runs on the slice's (mid price, time) columns and the
result row is overwritten only when a hit was found. -/
def enhanceEvent (result : EventResult) (slice : Option (List Tick))
    (entryPrice tpMult slMult : ℚ) (side : ℤ) (vol : ℚ) : EventResult :=
  match slice with
  | none => result
  | some ticks =>
    if ticks.length = 0 then result
    else if side = 1 ∨ side = -1 then
      let tpPrice := if side = 1 then entryPrice + tpMult * vol else entryPrice - tpMult * vol
      let slPrice := if side = 1 then entryPrice - slMult * vol else entryPrice + slMult * vol
      let fh := firstHitDetection entryPrice tpPrice slPrice side
        (ticks.map fun tk => (tk.mid, tk.ts))
      if fh.1 ≠ 0 then
        { ret := if side = 1 then (fh.2.1 - entryPrice) / entryPrice
                 else (entryPrice - fh.2.1) / entryPrice
          label := if fh.1 = 1 then 1 else -1
          exitPrice := fh.2.1
          exitTime := fh.2.2
          hitType := fh.1
          vol := vol }
      else result
    else result

/-- load_tick_slices: events whose slice file is missing or fails to load
(fetch yields none) are simply absent from the returned association list;
the loader never aborts. -/
def loadTickSlices (fetch : ℕ → Option (List Tick)) (eventIds : List ℕ) :
    List (ℕ × List Tick) :=
  eventIds.filterMap fun eid => (fetch eid).map fun s => (eid, s)

/-- Batch loop of enhance_with_tick_slices: walk the result rows in step
with the event indices and per-event volatilities; rows beyond the event
index list stay untouched, as does any row whose event index has no loaded
slice (enhanceEvent receives none). -/
def enhanceWithTickSlices (slices : List (ℕ × List Tick)) (barPrices : List ℚ)
    (tpMult slMult : ℚ) (side : ℤ) :
    List EventResult → List ℕ → List ℚ → List EventResult
  | [], _, _ => []
  | r :: rs, [], _ => r :: rs
  | r :: rs, eidx :: idxs, vols =>
    enhanceEvent r (slices.lookup eidx) (barPrices.getD eidx 0) tpMult slMult side
        (vols.headD 0) ::
      enhanceWithTickSlices slices barPrices tpMult slMult side rs idxs vols.tail

/-! ## v2.1 kernel: apply_labeling_v2_1_numba -/

/-- Per-tick condition of the v2.1 kernel: a long position checks TP
against the ask and SL against the bid; any other side takes the mirrored
branch (TP against bid, SL against ask). -/
def tickCheckV21 (tpPrice slPrice : ℚ) (side : ℤ) (bid ask : ℚ) : Option ℤ :=
  if side = 1 then
    if tpPrice ≤ ask then some 1
    else if bid ≤ slPrice then some (-1)
    else none
  else
    if bid ≤ tpPrice then some 1
    else if slPrice ≤ ask then some (-1)
    else none

/-- Inner tick loop of the v2.1 kernel over one bar's (bid, ask) slice:
first tick whose condition fires wins. -/
def firstHitV21 (tpPrice slPrice : ℚ) (side : ℤ) : List (ℚ × ℚ) → Option ℤ
  | [] => none
  | (bid, ask) :: rest =>
    match tickCheckV21 tpPrice slPrice side bid ask with
    | some h => some h
    | none => firstHitV21 tpPrice slPrice side rest

/-- Outer bar loop of the v2.1 kernel: first bar whose tick slice produces
a hit wins, returned with its bar index. -/
def v21Scan (slices : List (List (ℚ × ℚ))) (tpPrice slPrice : ℚ) (side : ℤ) :
    ℕ → ℕ → Option (ℤ × ℕ)
  | _, 0 => none
  | t, fuel + 1 =>
    match firstHitV21 tpPrice slPrice side (slices.getD t []) with
    | some h => some (h, t)
    | none => v21Scan slices tpPrice slPrice side (t + 1) fuel

/-- One event of apply_labeling_v2_1_numba: entry at the bar mid of
(high+low)/2, barrier levels from pt_sl, tick scan over bars
entry+1 .. min(entry+timeout_bars, n−1); on a hit the recorded return is
(barrier − entry)/entry, on timeout it comes from the final bar mid.
The result triple is (return, label, final bar index). -/
def labelEventV21 (highs lows : List ℚ) (slices : List (List (ℚ × ℚ)))
    (entryTime : ℕ) (pt slv : ℚ) (timeoutBars : ℕ) (side : ℤ) : ℚ × ℤ × ℕ :=
  let entryPrice := (highs.getD entryTime 0 + lows.getD entryTime 0) / 2
  let tpPrice := if side = 1 then entryPrice + pt else entryPrice - pt
  let slPrice := if side = 1 then entryPrice - slv else entryPrice + slv
  let timeoutTime := min (entryTime + timeoutBars) (highs.length - 1)
  match v21Scan slices tpPrice slPrice side (entryTime + 1) (timeoutTime - entryTime) with
  | some (h, t) =>
    if h = 1 then ((tpPrice - entryPrice) / entryPrice, 1, t)
    else ((slPrice - entryPrice) / entryPrice, -1, t)
  | none =>
    let finalPrice := (highs.getD timeoutTime 0 + lows.getD timeoutTime 0) / 2
    ((finalPrice - entryPrice) / entryPrice, 0, timeoutTime)

/-- Label consistency predicate of the spec: label 1 ↔ TP, label −1 ↔ SL,
label 0 ↔ timeout (hit types use the source's integer encoding). -/
def labelConsistent (r : EventResult) : Prop :=
  (r.label = 1 ↔ r.hitType = 1) ∧ (r.label = -1 ↔ r.hitType = -1) ∧
    (r.label = 0 ↔ r.hitType = 0)

instance (r : EventResult) : Decidable (labelConsistent r) := by
  unfold labelConsistent; infer_instance

/-! ## Helper lemmas -/

theorem scanFrom_some_spec (prices : List ℚ) (times : List ℤ) (tt : ℤ)
    (check : ℚ → Option (ℤ × ℚ × ℤ)) :
    ∀ (fuel t0 t : ℕ) (hb : ℤ) (ep : ℚ) (s : ℤ),
      scanFrom prices times tt check t0 fuel = some (t, hb, ep, s) →
      t0 ≤ t ∧ t < t0 + fuel ∧ times.getD t 0 ≤ tt ∧
        check (prices.getD t 0) = some (hb, ep, s) ∧
        ∀ j, t0 ≤ j → j < t → check (prices.getD j 0) = none := by
  intro fuel
  induction fuel with
  | zero => intro t0 t hb ep s hscan; simp [scanFrom] at hscan
  | succ n ih =>
    intro t0 t hb ep s hscan
    rw [scanFrom] at hscan
    by_cases htime : tt < times.getD t0 0
    · rw [if_pos htime] at hscan; exact Option.noConfusion hscan
    · rw [if_neg htime] at hscan
      cases hchk : check (prices.getD t0 0) with
      | some v =>
        obtain ⟨h1, ep1, s1⟩ := v
        rw [hchk] at hscan
        simp only [Option.some.injEq, Prod.mk.injEq] at hscan
        obtain ⟨rfl, rfl, rfl, rfl⟩ := hscan
        refine ⟨le_refl _, by omega, not_lt.mp htime, hchk, ?_⟩
        intro j hj1 hj2; omega
      | none =>
        rw [hchk] at hscan
        obtain ⟨ha, hb2, hc, hd, he⟩ := ih (t0 + 1) t hb ep s hscan
        refine ⟨by omega, by omega, hc, hd, ?_⟩
        intro j hj1 hj2
        rcases Nat.eq_or_lt_of_le hj1 with rfl | hlt
        · exact hchk
        · exact he j hlt hj2

theorem checkBarV22_some (e td sd : ℚ) (side : ℤ) (p : ℚ) (hb : ℤ) (ep : ℚ) (s : ℤ)
    (hc : checkBarV22 e td sd side p = some (hb, ep, s)) :
    (hb = 1 ∨ hb = -1) ∧ (s = 1 ∨ s = -1) ∧
      ep = (if hb = 1 then (if s = 1 then e + td else e - td)
            else (if s = 1 then e - sd else e + sd)) := by
  unfold checkBarV22 at hc
  split_ifs at hc
  all_goals
    first
    | exact Option.noConfusion hc
    | (simp only [Option.some.injEq, Prod.mk.injEq] at hc
       obtain ⟨h1, h2, h3⟩ := hc
       subst h1; subst h2; subst h3
       norm_num)

theorem checkBarV22_none_iff_long (e td sd : ℚ) (p : ℚ) :
    checkBarV22 e td sd 1 p = none ↔ (p < e + td ∧ e - sd < p) := by
  unfold checkBarV22
  split_ifs <;> simp_all

theorem tickCheckV22_range (tp sl : ℚ) (side : ℤ) (p : ℚ) (hb : ℤ)
    (hc : tickCheckV22 tp sl side p = some hb) : hb = 1 ∨ hb = -1 := by
  unfold tickCheckV22 at hc
  split_ifs at hc <;> simp_all

theorem firstHitDetection_range (e tp sl : ℚ) (side : ℤ) :
    ∀ ticks : List (ℚ × ℤ),
      (firstHitDetection e tp sl side ticks).1 = 0 ∨
        (firstHitDetection e tp sl side ticks).1 = 1 ∨
        (firstHitDetection e tp sl side ticks).1 = -1 := by
  intro ticks
  induction ticks with
  | nil => simp [firstHitDetection]
  | cons tk rest ih =>
    obtain ⟨p, tm⟩ := tk
    cases hchk : tickCheckV22 tp sl side p with
    | some hb =>
      rcases tickCheckV22_range tp sl side p hb hchk with rfl | rfl <;>
        simp [firstHitDetection, hchk]
    | none =>
      cases rest with
      | nil => simp [firstHitDetection, hchk]
      | cons tk2 rest2 => simpa [firstHitDetection, hchk] using ih

theorem firstHitDetection_exit (e tp sl : ℚ) (side : ℤ) :
    ∀ ticks : List (ℚ × ℤ),
      ((firstHitDetection e tp sl side ticks).1 = 1 →
        (firstHitDetection e tp sl side ticks).2.1 = tp) ∧
      ((firstHitDetection e tp sl side ticks).1 = -1 →
        (firstHitDetection e tp sl side ticks).2.1 = sl) := by
  intro ticks
  induction ticks with
  | nil => simp [firstHitDetection]
  | cons tk rest ih =>
    obtain ⟨p, tm⟩ := tk
    cases hchk : tickCheckV22 tp sl side p with
    | some hb =>
      rcases tickCheckV22_range tp sl side p hb hchk with rfl | rfl <;>
        simp [firstHitDetection, hchk]
    | none =>
      cases rest with
      | nil => simp [firstHitDetection, hchk]
      | cons tk2 rest2 => simpa [firstHitDetection, hchk] using ih

theorem firstHit_first_spec (e tp sl : ℚ) (side : ℤ) :
    ∀ (ticks : List (ℚ × ℤ)) (k : ℕ) (hb : ℤ),
      k < ticks.length →
      (∀ j, j < k → tickCheckV22 tp sl side (ticks.getD j (0, 0)).1 = none) →
      tickCheckV22 tp sl side (ticks.getD k (0, 0)).1 = some hb →
      firstHitDetection e tp sl side ticks =
        (hb, if hb = 1 then tp else sl, (ticks.getD k (0, 0)).2) := by
  intro ticks
  induction ticks with
  | nil => intro k hb hk; simp at hk
  | cons tk rest ih =>
    intro k hb hk hnone hsome
    obtain ⟨p, tm⟩ := tk
    cases k with
    | zero =>
      simp only [List.getD_cons_zero] at hsome ⊢
      simp [firstHitDetection, hsome]
    | succ k2 =>
      have hfirst : tickCheckV22 tp sl side p = none := by
        have := hnone 0 (Nat.succ_pos k2)
        simpa using this
      have hklen : k2 < rest.length := by
        simpa [List.length_cons, Nat.succ_lt_succ_iff] using hk
      have hrest : rest ≠ [] := by
        intro hre; rw [hre] at hklen; simp at hklen
      obtain ⟨tk2, rest2, rfl⟩ := List.exists_cons_of_ne_nil hrest
      have hnone2 : ∀ j, j < k2 →
          tickCheckV22 tp sl side ((tk2 :: rest2).getD j (0, 0)).1 = none := by
        intro j hj
        have := hnone (j + 1) (Nat.succ_lt_succ hj)
        simpa using this
      have hsome2 : tickCheckV22 tp sl side
          (((tk2 :: rest2)).getD k2 (0, 0)).1 = some hb := by
        simpa using hsome
      have hrec := ih k2 hb hklen hnone2 hsome2
      simp only [firstHitDetection, hfirst]
      simpa using hrec

theorem tickCheckV21_range (tp sl : ℚ) (side : ℤ) (bid ask : ℚ) (hb : ℤ)
    (hc : tickCheckV21 tp sl side bid ask = some hb) : hb = 1 ∨ hb = -1 := by
  unfold tickCheckV21 at hc
  split_ifs at hc <;> simp_all

theorem firstHitV21_first_spec (tp sl : ℚ) (side : ℤ) :
    ∀ (ticks : List (ℚ × ℚ)) (k : ℕ) (hb : ℤ),
      k < ticks.length →
      (∀ j, j < k →
        tickCheckV21 tp sl side (ticks.getD j (0, 0)).1 (ticks.getD j (0, 0)).2 = none) →
      tickCheckV21 tp sl side (ticks.getD k (0, 0)).1 (ticks.getD k (0, 0)).2 = some hb →
      firstHitV21 tp sl side ticks = some hb := by
  intro ticks
  induction ticks with
  | nil => intro k hb hk; simp at hk
  | cons tk rest ih =>
    intro k hb hk hnone hsome
    obtain ⟨bid, ask⟩ := tk
    cases k with
    | zero =>
      simp only [List.getD_cons_zero] at hsome
      simp only [firstHitV21, hsome]
    | succ k2 =>
      have hfirst : tickCheckV21 tp sl side bid ask = none := by
        have := hnone 0 (Nat.succ_pos k2)
        simpa using this
      have hklen : k2 < rest.length := by
        simpa [List.length_cons, Nat.succ_lt_succ_iff] using hk
      have hnone2 : ∀ j, j < k2 →
          tickCheckV21 tp sl side (rest.getD j (0, 0)).1 (rest.getD j (0, 0)).2 = none := by
        intro j hj
        have := hnone (j + 1) (Nat.succ_lt_succ hj)
        simpa using this
      have hsome2 : tickCheckV21 tp sl side
          (rest.getD k2 (0, 0)).1 (rest.getD k2 (0, 0)).2 = some hb := by
        simpa using hsome
      have := ih k2 hb hklen hnone2 hsome2
      simp only [firstHitV21, hfirst, this]

theorem ewmaVarGo_length (a : ℚ) :
    ∀ (l : List ℚ) (prev : ℚ), (ewmaVarGo a prev l).length = l.length := by
  intro l
  induction l with
  | nil => intro prev; rfl
  | cons x rest ih => intro prev; simp [ewmaVarGo, ih]

theorem ewmaVar_length (returns : List ℚ) (a : ℚ) :
    (ewmaVar returns a).length = returns.length := by
  cases returns with
  | nil => rfl
  | cons r rest => simp [ewmaVar, ewmaVarGo_length]

theorem ewmaVarGo_getD_succ (a : ℚ) :
    ∀ (l : List ℚ) (prev : ℚ) (t : ℕ), t + 1 < l.length →
      (ewmaVarGo a prev l).getD (t + 1) 0 =
        a * (ewmaVarGo a prev l).getD t 0 + (1 - a) * (l.getD (t + 1) 0) ^ 2 := by
  intro l
  induction l with
  | nil => intro prev t ht; simp at ht
  | cons x rest ih =>
    intro prev t ht
    cases t with
    | zero =>
      cases rest with
      | nil => simp at ht
      | cons y rest2 => simp [ewmaVarGo]
    | succ s =>
      have hlen : s + 1 < rest.length := by
        simpa [List.length_cons, Nat.succ_lt_succ_iff] using ht
      have := ih (a * prev + (1 - a) * x ^ 2) s hlen
      simpa [ewmaVarGo] using this

theorem ewmaVar_getD_succ (a : ℚ) (returns : List ℚ) (t : ℕ)
    (ht : t + 1 < returns.length) :
    (ewmaVar returns a).getD (t + 1) 0 =
      a * (ewmaVar returns a).getD t 0 + (1 - a) * (returns.getD (t + 1) 0) ^ 2 := by
  cases returns with
  | nil => simp at ht
  | cons r rest =>
    cases t with
    | zero =>
      cases rest with
      | nil => simp at ht
      | cons y rest2 => simp [ewmaVar, ewmaVarGo]
    | succ s =>
      have hlen : s + 1 < rest.length := by
        simpa [List.length_cons, Nat.succ_lt_succ_iff] using ht
      have := ewmaVarGo_getD_succ a rest (r ^ 2) s hlen
      simpa [ewmaVar] using this

theorem getD_map_lt {α β : Type} (f : α → β) (d : α) (d2 : β) :
    ∀ (l : List α) (t : ℕ), t < l.length → (l.map f).getD t d2 = f (l.getD t d) := by
  intro l
  induction l with
  | nil => intro t ht; simp at ht
  | cons x rest ih =>
    intro t ht
    cases t with
    | zero => simp
    | succ s =>
      have : s < rest.length := by
        simpa [List.length_cons, Nat.succ_lt_succ_iff] using ht
      simpa using ih s this

theorem getD_tail (l : List ℚ) (j : ℕ) (d : ℚ) :
    l.tail.getD j d = l.getD (j + 1) d := by
  cases l <;> simp

theorem headD_eq_getD (l : List ℚ) : l.headD 0 = l.getD 0 0 := by
  cases l <;> simp

theorem drop_take_eq_map_range :
    ∀ (n a : ℕ) (v : List ℚ), a + n ≤ v.length →
      (v.drop a).take n = (List.range n).map fun t => v.getD (a + t) 0 := by
  intro n
  induction n with
  | zero => intro a v hn; simp
  | succ m ih =>
    intro a v hn
    have hm : a + m ≤ v.length := by omega
    have hidx : a + m < v.length := by omega
    have hsome : v[a + m]? = some (v.getD (a + m) 0) := by
      cases hv : v[a + m]? with
      | none => rw [List.getElem?_eq_none_iff] at hv; omega
      | some x => simp [List.getD_eq_getElem?_getD, hv]
    rw [List.take_succ, List.range_succ, List.map_append, ih a v hm]
    simp only [List.getElem?_drop, hsome, Option.toList_some, List.map_cons, List.map_nil]

theorem labelEventV22_skip (prices : List ℚ) (times : List ℤ) (eventIdx : ℕ)
    (tpMult slMult : ℚ) (timeoutBars : ℕ) (timeoutSeconds : ℤ) (side : ℤ) (vol : ℚ)
    (hidx : ¬ eventIdx + 1 < prices.length) :
    labelEventV22 prices times eventIdx tpMult slMult timeoutBars timeoutSeconds side vol =
      { ret := 0, label := 0, exitPrice := 0, exitTime := 0, hitType := 0, vol := 0 } := by
  unfold labelEventV22
  rw [if_neg hidx]

theorem labelEventV22_hit (prices : List ℚ) (times : List ℤ) (eventIdx : ℕ)
    (tpMult slMult : ℚ) (timeoutBars : ℕ) (timeoutSeconds : ℤ) (side : ℤ) (vol : ℚ)
    (t : ℕ) (hb : ℤ) (ep : ℚ) (s : ℤ)
    (hidx : eventIdx + 1 < prices.length)
    (hscan : scanFrom prices times (times.getD eventIdx 0 + timeoutSeconds * 1000000000)
        (checkBarV22 (prices.getD eventIdx 0) (tpMult * vol) (slMult * vol) side)
        (eventIdx + 1) (min (eventIdx + timeoutBars) (prices.length - 1) - eventIdx) =
      some (t, hb, ep, s)) :
    labelEventV22 prices times eventIdx tpMult slMult timeoutBars timeoutSeconds side vol =
      { ret := if s = 1 then (ep - prices.getD eventIdx 0) / prices.getD eventIdx 0
               else if s = -1 then (prices.getD eventIdx 0 - ep) / prices.getD eventIdx 0
               else 0
        label := if hb = 1 then 1 else if hb = -1 then -1 else 0
        exitPrice := ep
        exitTime := times.getD t 0
        hitType := hb
        vol := vol } := by
  unfold labelEventV22
  rw [if_pos hidx]
  simp only [hscan]

theorem labelEventV22_timeout (prices : List ℚ) (times : List ℤ) (eventIdx : ℕ)
    (tpMult slMult : ℚ) (timeoutBars : ℕ) (timeoutSeconds : ℤ) (side : ℤ) (vol : ℚ)
    (hidx : eventIdx + 1 < prices.length)
    (hscan : scanFrom prices times (times.getD eventIdx 0 + timeoutSeconds * 1000000000)
        (checkBarV22 (prices.getD eventIdx 0) (tpMult * vol) (slMult * vol) side)
        (eventIdx + 1) (min (eventIdx + timeoutBars) (prices.length - 1) - eventIdx) = none) :
    labelEventV22 prices times eventIdx tpMult slMult timeoutBars timeoutSeconds side vol =
      { ret := if side = 1 then
                 (prices.getD (min (eventIdx + timeoutBars) (prices.length - 1)) 0
                   - prices.getD eventIdx 0) / prices.getD eventIdx 0
               else if side = -1 then
                 (prices.getD eventIdx 0
                   - prices.getD (min (eventIdx + timeoutBars) (prices.length - 1)) 0)
                   / prices.getD eventIdx 0
               else 0
        label := 0
        exitPrice := prices.getD (min (eventIdx + timeoutBars) (prices.length - 1)) 0
        exitTime := times.getD (min (eventIdx + timeoutBars) (prices.length - 1)) 0
        hitType := 0
        vol := vol } := by
  have htbi : min (eventIdx + timeoutBars) (prices.length - 1) < prices.length := by
    omega
  unfold labelEventV22
  rw [if_pos hidx]
  simp only [hscan, if_pos htbi]

theorem enhanceEvent_none (r : EventResult) (e tpM slM : ℚ) (side : ℤ) (vol : ℚ) :
    enhanceEvent r none e tpM slM side vol = r := rfl

theorem enhanceEvent_nil (r : EventResult) (e tpM slM : ℚ) (side : ℤ) (vol : ℚ) :
    enhanceEvent r (some []) e tpM slM side vol = r := rfl

theorem enhanceEvent_other_side (r : EventResult) (ticks : List Tick)
    (e tpM slM : ℚ) (side : ℤ) (vol : ℚ) (hs : ¬ (side = 1 ∨ side = -1)) :
    enhanceEvent r (some ticks) e tpM slM side vol = r := by
  unfold enhanceEvent
  simp only []
  split_ifs <;> simp_all

theorem enhanceEvent_no_hit (r : EventResult) (ticks : List Tick)
    (e tpM slM : ℚ) (side : ℤ) (vol : ℚ)
    (hfh : (firstHitDetection e
        (if side = 1 then e + tpM * vol else e - tpM * vol)
        (if side = 1 then e - slM * vol else e + slM * vol) side
        (ticks.map fun tk => (tk.mid, tk.ts))).1 = 0) :
    enhanceEvent r (some ticks) e tpM slM side vol = r := by
  unfold enhanceEvent
  simp only []
  by_cases hlen : ticks.length = 0
  · rw [if_pos hlen]
  · rw [if_neg hlen]
    by_cases hs : side = 1 ∨ side = -1
    · rw [if_pos hs]
      rcases hs with rfl | rfl <;> simp_all
    · rw [if_neg hs]

theorem enhanceEvent_hit (r : EventResult) (ticks : List Tick)
    (e tpM slM : ℚ) (side : ℤ) (vol : ℚ)
    (hlen : ¬ ticks.length = 0) (hs : side = 1 ∨ side = -1)
    (hfh : (firstHitDetection e
        (if side = 1 then e + tpM * vol else e - tpM * vol)
        (if side = 1 then e - slM * vol else e + slM * vol) side
        (ticks.map fun tk => (tk.mid, tk.ts))).1 ≠ 0) :
    enhanceEvent r (some ticks) e tpM slM side vol =
      { ret := if side = 1
               then ((firstHitDetection e (e + tpM * vol) (e - slM * vol) side
                 (ticks.map fun tk => (tk.mid, tk.ts))).2.1 - e) / e
               else (e - (firstHitDetection e (e - tpM * vol) (e + slM * vol) side
                 (ticks.map fun tk => (tk.mid, tk.ts))).2.1) / e
        label := if (firstHitDetection e
                 (if side = 1 then e + tpM * vol else e - tpM * vol)
                 (if side = 1 then e - slM * vol else e + slM * vol) side
                 (ticks.map fun tk => (tk.mid, tk.ts))).1 = 1 then 1 else -1
        exitPrice := (firstHitDetection e
                 (if side = 1 then e + tpM * vol else e - tpM * vol)
                 (if side = 1 then e - slM * vol else e + slM * vol) side
                 (ticks.map fun tk => (tk.mid, tk.ts))).2.1
        exitTime := (firstHitDetection e
                 (if side = 1 then e + tpM * vol else e - tpM * vol)
                 (if side = 1 then e - slM * vol else e + slM * vol) side
                 (ticks.map fun tk => (tk.mid, tk.ts))).2.2
        hitType := (firstHitDetection e
                 (if side = 1 then e + tpM * vol else e - tpM * vol)
                 (if side = 1 then e - slM * vol else e + slM * vol) side
                 (ticks.map fun tk => (tk.mid, tk.ts))).1
        vol := vol } := by
  unfold enhanceEvent
  rcases hs with rfl | rfl <;> simp_all

theorem loadTickSlices_lookup_none (fetch : ℕ → Option (List Tick)) (eid : ℕ)
    (hf : fetch eid = none) :
    ∀ ids, (loadTickSlices fetch ids).lookup eid = none := by
  intro ids
  induction ids with
  | nil => rfl
  | cons a rest ih =>
    unfold loadTickSlices
    rw [List.filterMap_cons]
    cases hfa : fetch a with
    | none => simpa [loadTickSlices] using ih
    | some s =>
      have hne : (eid == a) = false := by
        by_cases heq : eid = a
        · subst heq; rw [hf] at hfa; cases hfa
        · simp [heq]
      simpa [List.lookup, hne, loadTickSlices] using ih

theorem enhanceWithTickSlices_length (slices : List (ℕ × List Tick))
    (barPrices : List ℚ) (tpM slM : ℚ) (side : ℤ) :
    ∀ (results : List EventResult) (idxs : List ℕ) (vols : List ℚ),
      (enhanceWithTickSlices slices barPrices tpM slM side results idxs vols).length =
        results.length := by
  intro results
  induction results with
  | nil => intro idxs vols; rfl
  | cons r rs ih =>
    intro idxs vols
    cases idxs with
    | nil => rfl
    | cons eidx rest => simp [enhanceWithTickSlices, ih]

theorem enhanceWithTickSlices_getD (slices : List (ℕ × List Tick))
    (barPrices : List ℚ) (tpM slM : ℚ) (side : ℤ) :
    ∀ (results : List EventResult) (idxs : List ℕ) (vols : List ℚ) (i : ℕ)
      (d : EventResult),
      i < results.length → i < idxs.length →
      (enhanceWithTickSlices slices barPrices tpM slM side results idxs vols).getD i d =
        enhanceEvent (results.getD i d) (slices.lookup (idxs.getD i 0))
          (barPrices.getD (idxs.getD i 0) 0) tpM slM side (vols.getD i 0) := by
  intro results
  induction results with
  | nil => intro idxs vols i d hi; simp at hi
  | cons r rs ih =>
    intro idxs vols i d hi hj
    cases idxs with
    | nil => simp at hj
    | cons eidx rest =>
      cases i with
      | zero =>
        cases vols <;> simp [enhanceWithTickSlices]
      | succ i2 =>
        have hi2 : i2 < rs.length := by
          simpa [List.length_cons, Nat.succ_lt_succ_iff] using hi
        have hj2 : i2 < rest.length := by
          simpa [List.length_cons, Nat.succ_lt_succ_iff] using hj
        have := ih rest vols.tail i2 d hi2 hj2
        simpa [enhanceWithTickSlices, getD_tail] using this

theorem enhanceWithTickSlices_getD_beyond (slices : List (ℕ × List Tick))
    (barPrices : List ℚ) (tpM slM : ℚ) (side : ℤ) :
    ∀ (results : List EventResult) (idxs : List ℕ) (vols : List ℚ) (i : ℕ)
      (d : EventResult),
      idxs.length ≤ i →
      (enhanceWithTickSlices slices barPrices tpM slM side results idxs vols).getD i d =
        results.getD i d := by
  intro results
  induction results with
  | nil => intro idxs vols i d hi; rfl
  | cons r rs ih =>
    intro idxs vols i d hi
    cases idxs with
    | nil => rfl
    | cons eidx rest =>
      cases i with
      | zero => simp at hi
      | succ i2 =>
        have hi2 : rest.length ≤ i2 := by
          simpa [List.length_cons, Nat.succ_le_succ_iff] using hi
        have := ih rest vols.tail i2 d hi2
        simpa [enhanceWithTickSlices] using this

/-! ## Claim theorems -/

/-- C1: for every event the bar-level scanner resolves as TP_HIT or SL_HIT
(scanFrom starting at the bar after the entry bar returns some hit), no bar
strictly between the entry bar and the resolved bar satisfies either
barrier condition for the event's side (the per-bar check checkBarV22 is
none on every such bar), and the resolved bar itself satisfies the
condition returned: the scanner returns the first crossing in bar order. -/
theorem C1_scanner_first_crossing (prices : List ℚ) (times : List ℤ)
    (timeoutTime : ℤ) (e td sd : ℚ) (side : ℤ) (eventIdx fuel t : ℕ)
    (hb : ℤ) (ep : ℚ) (s : ℤ)
    (hscan : scanFrom prices times timeoutTime (checkBarV22 e td sd side)
        (eventIdx + 1) fuel = some (t, hb, ep, s)) :
    (∀ j, eventIdx < j → j < t →
        checkBarV22 e td sd side (prices.getD j 0) = none) ∧
      checkBarV22 e td sd side (prices.getD t 0) = some (hb, ep, s) := by
  obtain ⟨h1, h2, h3, h4, h5⟩ :=
    scanFrom_some_spec prices times timeoutTime (checkBarV22 e td sd side)
      fuel (eventIdx + 1) t hb ep s hscan
  exact ⟨fun j hj1 hj2 => h5 j (by omega) hj2, h4⟩

/-- Witness for C1 at a concrete input: scanning bars [101, 103] after
entry price 100 with TP distance 2 and SL distance 2 long, bar 1 satisfies
neither condition and the scan resolves at bar 2 with the TP barrier 102. -/
theorem C1_scanner_first_crossing_witness :
    checkBarV22 100 2 2 1 (([100, 101, 103] : List ℚ).getD 1 0) = none ∧
      checkBarV22 100 2 2 1 (([100, 101, 103] : List ℚ).getD 2 0) =
        some (1, 102, 1) := by
  have h := C1_scanner_first_crossing [100, 101, 103] [0, 1, 2] 1000 100 2 2 1
    0 2 2 1 102 1 (by norm_num [scanFrom, checkBarV22])
  exact ⟨h.1 1 (by omega) (by omega), h.2⟩

/-- C3 counterexample: with entry price 100, zero TP and SL distances and
side long, the bar at index 1 (price 100) satisfies both the TP condition
(price ≥ 100 + 0·1) and the SL condition (price ≤ 100 − 0·1), yet the
scanner resolves the event as hit type 1 (TP_HIT), not −1 (SL_HIT) as the
claim states; the result row also carries no ambiguity flag. -/
theorem C3_tie_is_tp_cex :
    ((100 : ℚ) + 0 * 1 ≤ ([100, 100] : List ℚ).getD 1 0 ∧
        ([100, 100] : List ℚ).getD 1 0 ≤ (100 : ℚ) - 0 * 1) ∧
      (labelEventV22 [100, 100] [0, 1] 0 0 0 5 100 1 1).hitType = 1 := by
  refine ⟨⟨by norm_num, by norm_num⟩,
    by norm_num [labelEventV22, scanFrom, checkBarV22]⟩

/-- C3 amended: when the take-profit and stop-loss conditions are
simultaneously true on the same bar, the event is resolved as TP_HIT, not
SL_HIT — the take-profit check comes first in the fixed elif order — and
no ambiguity flag exists in the output row.  Per bar this holds for long,
for short, and for side "both" (a simultaneous long pair resolves through
the long TP check, and with the configured nonnegative barrier distances a
simultaneous short pair does too); at the event level, a scan of the v2.2
kernel that resolves on a bar satisfying both conditions records hit type
1, label 1 and the TP barrier as exit price, for each side. -/
theorem C3_amended_tp_precedence :
    (∀ (e td sd p : ℚ),
      (e + td ≤ p → p ≤ e - sd → checkBarV22 e td sd 1 p = some (1, e + td, 1)) ∧
      (p ≤ e - td → e + sd ≤ p → checkBarV22 e td sd (-1) p = some (1, e - td, -1)) ∧
      (e + td ≤ p → p ≤ e - sd → checkBarV22 e td sd 0 p = some (1, e + td, 1)) ∧
      (0 ≤ td → 0 ≤ sd → p ≤ e - td → e + sd ≤ p →
        checkBarV22 e td sd 0 p = some (1, e + td, 1))) ∧
    (∀ (prices : List ℚ) (times : List ℤ) (eventIdx : ℕ) (tpMult slMult : ℚ)
        (timeoutBars : ℕ) (timeoutSeconds : ℤ) (vol : ℚ) (t : ℕ) (hb : ℤ)
        (ep : ℚ) (s : ℤ),
      eventIdx + 1 < prices.length →
      scanFrom prices times (times.getD eventIdx 0 + timeoutSeconds * 1000000000)
          (checkBarV22 (prices.getD eventIdx 0) (tpMult * vol) (slMult * vol) 1)
          (eventIdx + 1) (min (eventIdx + timeoutBars) (prices.length - 1) - eventIdx) =
        some (t, hb, ep, s) →
      prices.getD eventIdx 0 + tpMult * vol ≤ prices.getD t 0 →
      prices.getD t 0 ≤ prices.getD eventIdx 0 - slMult * vol →
      (labelEventV22 prices times eventIdx tpMult slMult timeoutBars
          timeoutSeconds 1 vol).hitType = 1 ∧
        (labelEventV22 prices times eventIdx tpMult slMult timeoutBars
            timeoutSeconds 1 vol).label = 1 ∧
        (labelEventV22 prices times eventIdx tpMult slMult timeoutBars
            timeoutSeconds 1 vol).exitPrice = prices.getD eventIdx 0 + tpMult * vol) ∧
    (∀ (prices : List ℚ) (times : List ℤ) (eventIdx : ℕ) (tpMult slMult : ℚ)
        (timeoutBars : ℕ) (timeoutSeconds : ℤ) (vol : ℚ) (t : ℕ) (hb : ℤ)
        (ep : ℚ) (s : ℤ),
      eventIdx + 1 < prices.length →
      scanFrom prices times (times.getD eventIdx 0 + timeoutSeconds * 1000000000)
          (checkBarV22 (prices.getD eventIdx 0) (tpMult * vol) (slMult * vol) (-1))
          (eventIdx + 1) (min (eventIdx + timeoutBars) (prices.length - 1) - eventIdx) =
        some (t, hb, ep, s) →
      prices.getD t 0 ≤ prices.getD eventIdx 0 - tpMult * vol →
      prices.getD eventIdx 0 + slMult * vol ≤ prices.getD t 0 →
      (labelEventV22 prices times eventIdx tpMult slMult timeoutBars
          timeoutSeconds (-1) vol).hitType = 1 ∧
        (labelEventV22 prices times eventIdx tpMult slMult timeoutBars
            timeoutSeconds (-1) vol).label = 1 ∧
        (labelEventV22 prices times eventIdx tpMult slMult timeoutBars
            timeoutSeconds (-1) vol).exitPrice = prices.getD eventIdx 0 - tpMult * vol) ∧
    (∀ (prices : List ℚ) (times : List ℤ) (eventIdx : ℕ) (tpMult slMult : ℚ)
        (timeoutBars : ℕ) (timeoutSeconds : ℤ) (vol : ℚ) (t : ℕ) (hb : ℤ)
        (ep : ℚ) (s : ℤ),
      eventIdx + 1 < prices.length →
      scanFrom prices times (times.getD eventIdx 0 + timeoutSeconds * 1000000000)
          (checkBarV22 (prices.getD eventIdx 0) (tpMult * vol) (slMult * vol) 0)
          (eventIdx + 1) (min (eventIdx + timeoutBars) (prices.length - 1) - eventIdx) =
        some (t, hb, ep, s) →
      prices.getD eventIdx 0 + tpMult * vol ≤ prices.getD t 0 →
      prices.getD t 0 ≤ prices.getD eventIdx 0 - slMult * vol →
      (labelEventV22 prices times eventIdx tpMult slMult timeoutBars
          timeoutSeconds 0 vol).hitType = 1 ∧
        (labelEventV22 prices times eventIdx tpMult slMult timeoutBars
            timeoutSeconds 0 vol).label = 1 ∧
        (labelEventV22 prices times eventIdx tpMult slMult timeoutBars
            timeoutSeconds 0 vol).exitPrice = prices.getD eventIdx 0 + tpMult * vol) := by
  have hbar : ∀ (e td sd p : ℚ),
      (e + td ≤ p → p ≤ e - sd → checkBarV22 e td sd 1 p = some (1, e + td, 1)) ∧
      (p ≤ e - td → e + sd ≤ p → checkBarV22 e td sd (-1) p = some (1, e - td, -1)) ∧
      (e + td ≤ p → p ≤ e - sd → checkBarV22 e td sd 0 p = some (1, e + td, 1)) ∧
      (0 ≤ td → 0 ≤ sd → p ≤ e - td → e + sd ≤ p →
        checkBarV22 e td sd 0 p = some (1, e + td, 1)) := by
    intro e td sd p
    refine ⟨fun h1 h2 => ?_, fun h1 h2 => ?_, fun h1 h2 => ?_,
      fun h0td h0sd h1 h2 => ?_⟩
    · simp [checkBarV22, h1, h2]
    · simp [checkBarV22, h1, h2]
    · simp [checkBarV22, h1, h2]
    · have htd : td = 0 := by linarith
      have hsd : sd = 0 := by linarith
      subst htd; subst hsd
      have hp1 : e + 0 ≤ p := by linarith
      have hp2 : p ≤ e - 0 := by linarith
      simp [checkBarV22, hp1, hp2]
      intro hcontra
      linarith
  refine ⟨hbar, ?_, ?_, ?_⟩
  · intro prices times eventIdx tpMult slMult timeoutBars timeoutSeconds vol
      t hb ep s hidx hscan h1 h2
    obtain ⟨-, -, -, hchk, -⟩ := scanFrom_some_spec prices times _ _ _ _ _ _ _ _ hscan
    have htie := (hbar (prices.getD eventIdx 0) (tpMult * vol) (slMult * vol)
      (prices.getD t 0)).1 h1 h2
    rw [hchk] at htie
    simp only [Option.some.injEq, Prod.mk.injEq] at htie
    obtain ⟨rfl, rfl, rfl⟩ := htie
    rw [labelEventV22_hit prices times eventIdx tpMult slMult timeoutBars
      timeoutSeconds 1 vol t 1 (prices.getD eventIdx 0 + tpMult * vol) 1 hidx hscan]
    simp
  · intro prices times eventIdx tpMult slMult timeoutBars timeoutSeconds vol
      t hb ep s hidx hscan h1 h2
    obtain ⟨-, -, -, hchk, -⟩ := scanFrom_some_spec prices times _ _ _ _ _ _ _ _ hscan
    have htie := (hbar (prices.getD eventIdx 0) (tpMult * vol) (slMult * vol)
      (prices.getD t 0)).2.1 h1 h2
    rw [hchk] at htie
    simp only [Option.some.injEq, Prod.mk.injEq] at htie
    obtain ⟨rfl, rfl, rfl⟩ := htie
    rw [labelEventV22_hit prices times eventIdx tpMult slMult timeoutBars
      timeoutSeconds (-1) vol t 1 (prices.getD eventIdx 0 - tpMult * vol) (-1) hidx hscan]
    simp
  · intro prices times eventIdx tpMult slMult timeoutBars timeoutSeconds vol
      t hb ep s hidx hscan h1 h2
    obtain ⟨-, -, -, hchk, -⟩ := scanFrom_some_spec prices times _ _ _ _ _ _ _ _ hscan
    have htie := (hbar (prices.getD eventIdx 0) (tpMult * vol) (slMult * vol)
      (prices.getD t 0)).2.2.1 h1 h2
    rw [hchk] at htie
    simp only [Option.some.injEq, Prod.mk.injEq] at htie
    obtain ⟨rfl, rfl, rfl⟩ := htie
    rw [labelEventV22_hit prices times eventIdx tpMult slMult timeoutBars
      timeoutSeconds 0 vol t 1 (prices.getD eventIdx 0 + tpMult * vol) 1 hidx hscan]
    simp

/-- Witness for C3 amended: entry 100, both distances 0, bar price 100
satisfies both conditions for every side; the per-bar check resolves TP in
all four tie cases, and a concrete two-bar scan records hit type 1, label
1 and the TP barrier as exit price for long, short and both-side events. -/
theorem C3_amended_tp_precedence_witness :
    checkBarV22 100 0 0 1 100 = some (1, (100 : ℚ) + 0, 1) ∧
    checkBarV22 100 0 0 (-1) 100 = some (1, (100 : ℚ) - 0, -1) ∧
    checkBarV22 100 0 0 0 100 = some (1, (100 : ℚ) + 0, 1) ∧
    ((labelEventV22 [100, 100] [0, 1] 0 0 0 5 100 1 1).hitType = 1 ∧
      (labelEventV22 [100, 100] [0, 1] 0 0 0 5 100 1 1).label = 1 ∧
      (labelEventV22 [100, 100] [0, 1] 0 0 0 5 100 1 1).exitPrice =
        ([100, 100] : List ℚ).getD 0 0 + 0 * 1) ∧
    ((labelEventV22 [100, 100] [0, 1] 0 0 0 5 100 (-1) 1).hitType = 1 ∧
      (labelEventV22 [100, 100] [0, 1] 0 0 0 5 100 (-1) 1).label = 1 ∧
      (labelEventV22 [100, 100] [0, 1] 0 0 0 5 100 (-1) 1).exitPrice =
        ([100, 100] : List ℚ).getD 0 0 - 0 * 1) ∧
    ((labelEventV22 [100, 100] [0, 1] 0 0 0 5 100 0 1).hitType = 1 ∧
      (labelEventV22 [100, 100] [0, 1] 0 0 0 5 100 0 1).label = 1 ∧
      (labelEventV22 [100, 100] [0, 1] 0 0 0 5 100 0 1).exitPrice =
        ([100, 100] : List ℚ).getD 0 0 + 0 * 1) := by
  refine ⟨(C3_amended_tp_precedence.1 100 0 0 100).1 (by norm_num) (by norm_num),
    (C3_amended_tp_precedence.1 100 0 0 100).2.1 (by norm_num) (by norm_num),
    (C3_amended_tp_precedence.1 100 0 0 100).2.2.2 (by norm_num) (by norm_num)
      (by norm_num) (by norm_num),
    C3_amended_tp_precedence.2.1 [100, 100] [0, 1] 0 0 0 5 100 1 1 1 100 1
      (by norm_num) (by norm_num [scanFrom, checkBarV22]) (by norm_num) (by norm_num),
    C3_amended_tp_precedence.2.2.1 [100, 100] [0, 1] 0 0 0 5 100 1 1 1 100 (-1)
      (by norm_num) (by norm_num [scanFrom, checkBarV22]) (by norm_num) (by norm_num),
    C3_amended_tp_precedence.2.2.2 [100, 100] [0, 1] 0 0 0 5 100 1 1 1 100 1
      (by norm_num) (by norm_num [scanFrom, checkBarV22]) (by norm_num) (by norm_num)⟩

/-- C4 counterexample: bars at times [0, 5000 s, 10000 s], timeout_seconds
1, timeout_bars 2.  The wall-clock cap (entry + 1 s) comes first: it
already stops the scan at bar 1.  Yet the recorded TIMED_OUT exit is bar 2
— the bar-count cap min(event.index+timeout_bars, last_bar) — whose
timestamp 10000 s lies strictly beyond the wall-clock boundary,
contradicting the claim that the exit is the bar at the binding timeout
boundary and not a bar beyond it. -/
theorem C4_timeout_exit_beyond_cex :
    (labelEventV22 [100, 100, 100] [0, 5000000000000, 10000000000000]
        0 1 1 2 1 1 1).hitType = 0 ∧
      (labelEventV22 [100, 100, 100] [0, 5000000000000, 10000000000000]
          0 1 1 2 1 1 1).exitTime = 10000000000000 ∧
      ((0 : ℤ) + 1 * 1000000000 < 5000000000000) ∧
      ((0 : ℤ) + 1 * 1000000000 < 10000000000000) := by
  refine ⟨?_, ?_, by norm_num, by norm_num⟩ <;>
    norm_num [labelEventV22, scanFrom, checkBarV22]

/-- C4 amended: the scan visits only bars up to the bar-count cap
min(event.index + timeout_bars, last_bar_index) and stops before any bar
whose timestamp exceeds entry + timeout_seconds (a resolved hit lies
within both caps, so the scan stops at whichever cap comes first); but on
TIMED_OUT the exit price and exit time are always those of the bar at the
bar-count cap — even when the wall-clock cap stopped the scan earlier —
and that bar is past the entry bar whenever timeout_bars > 0. -/
theorem C4_amended_timeout (prices : List ℚ) (times : List ℤ) (eventIdx : ℕ)
    (tpMult slMult : ℚ) (timeoutBars : ℕ) (timeoutSeconds : ℤ)
    (side : ℤ) (vol : ℚ)
    (hidx : eventIdx + 1 < prices.length) :
    ((labelEventV22 prices times eventIdx tpMult slMult timeoutBars
        timeoutSeconds side vol).hitType = 0 →
      (labelEventV22 prices times eventIdx tpMult slMult timeoutBars
          timeoutSeconds side vol).exitPrice =
        prices.getD (min (eventIdx + timeoutBars) (prices.length - 1)) 0 ∧
      (labelEventV22 prices times eventIdx tpMult slMult timeoutBars
          timeoutSeconds side vol).exitTime =
        times.getD (min (eventIdx + timeoutBars) (prices.length - 1)) 0) ∧
    (0 < timeoutBars →
      eventIdx < min (eventIdx + timeoutBars) (prices.length - 1)) ∧
    (∀ (fuel t : ℕ) (hb : ℤ) (ep : ℚ) (s : ℤ),
      scanFrom prices times (times.getD eventIdx 0 + timeoutSeconds * 1000000000)
          (checkBarV22 (prices.getD eventIdx 0) (tpMult * vol) (slMult * vol) side)
          (eventIdx + 1) fuel = some (t, hb, ep, s) →
      t < eventIdx + 1 + fuel ∧
        times.getD t 0 ≤ times.getD eventIdx 0 + timeoutSeconds * 1000000000) := by
  refine ⟨?_, by omega, ?_⟩
  · intro h0
    cases hscan : scanFrom prices times
        (times.getD eventIdx 0 + timeoutSeconds * 1000000000)
        (checkBarV22 (prices.getD eventIdx 0) (tpMult * vol) (slMult * vol) side)
        (eventIdx + 1) (min (eventIdx + timeoutBars) (prices.length - 1) - eventIdx) with
    | some v =>
      obtain ⟨t, hb, ep, s⟩ := v
      obtain ⟨-, -, -, hchk, -⟩ := scanFrom_some_spec prices times _ _ _ _ _ _ _ _ hscan
      obtain ⟨hrange, -, -⟩ := checkBarV22_some _ _ _ _ _ _ _ _ hchk
      rw [labelEventV22_hit prices times eventIdx tpMult slMult timeoutBars
        timeoutSeconds side vol t hb ep s hidx hscan] at h0
      simp only at h0
      omega
    | none =>
      rw [labelEventV22_timeout prices times eventIdx tpMult slMult timeoutBars
        timeoutSeconds side vol hidx hscan]
      exact ⟨rfl, rfl⟩
  · intro fuel t hb ep s hscan
    obtain ⟨-, h2, h3, -, -⟩ := scanFrom_some_spec prices times _ _ _ _ _ _ _ _ hscan
    exact ⟨h2, h3⟩

/-- Witness for C4 amended at concrete inputs: a flat series times out and
exits at the bar-count cap bar; a rising series resolves within both caps. -/
theorem C4_amended_timeout_witness :
    ((labelEventV22 [100, 100, 100] [0, 1, 2] 0 1 1 1 100 1 1).exitPrice =
        ([100, 100, 100] : List ℚ).getD (min (0 + 1) (([100, 100, 100] : List ℚ).length - 1)) 0 ∧
      (labelEventV22 [100, 100, 100] [0, 1, 2] 0 1 1 1 100 1 1).exitTime =
        ([0, 1, 2] : List ℤ).getD (min (0 + 1) (([100, 100, 100] : List ℚ).length - 1)) 0) ∧
    (0 < min (0 + 1) (([100, 100, 100] : List ℚ).length - 1)) ∧
    (2 < 0 + 1 + 2 ∧
      ([0, 1, 2] : List ℤ).getD 2 0 ≤
        ([0, 1, 2] : List ℤ).getD 0 0 + 1000 * 1000000000) := by
  refine ⟨?_, ?_, ?_⟩
  · exact (C4_amended_timeout [100, 100, 100] [0, 1, 2] 0 1 1 1 100 1 1
      (by norm_num)).1 (by norm_num [labelEventV22, scanFrom, checkBarV22])
  · exact (C4_amended_timeout [100, 100, 100] [0, 1, 2] 0 1 1 1 100 1 1
      (by norm_num)).2.1 (by norm_num)
  · exact (C4_amended_timeout [100, 101, 103] [0, 1, 2] 0 2 2 5 1000 1 1
      (by norm_num)).2.2 2 2 1 102 1 (by norm_num [scanFrom, checkBarV22])

/-- C9: for every event labeled with side "both" (side = 0) that ends in
timeout (hitType = 0), the recorded return is exactly 0, regardless of the
difference between the timeout bar's price and the entry price. -/
theorem C9_both_timeout_zero_return (prices : List ℚ) (times : List ℤ)
    (eventIdx : ℕ) (tpMult slMult : ℚ) (timeoutBars : ℕ) (timeoutSeconds : ℤ)
    (vol : ℚ)
    (h0 : (labelEventV22 prices times eventIdx tpMult slMult timeoutBars
        timeoutSeconds 0 vol).hitType = 0) :
    (labelEventV22 prices times eventIdx tpMult slMult timeoutBars
        timeoutSeconds 0 vol).ret = 0 := by
  by_cases hidx : eventIdx + 1 < prices.length
  · cases hscan : scanFrom prices times
        (times.getD eventIdx 0 + timeoutSeconds * 1000000000)
        (checkBarV22 (prices.getD eventIdx 0) (tpMult * vol) (slMult * vol) 0)
        (eventIdx + 1) (min (eventIdx + timeoutBars) (prices.length - 1) - eventIdx) with
    | some v =>
      obtain ⟨t, hb, ep, s⟩ := v
      obtain ⟨-, -, -, hchk, -⟩ := scanFrom_some_spec prices times _ _ _ _ _ _ _ _ hscan
      obtain ⟨hrange, -, -⟩ := checkBarV22_some _ _ _ _ _ _ _ _ hchk
      rw [labelEventV22_hit prices times eventIdx tpMult slMult timeoutBars
        timeoutSeconds 0 vol t hb ep s hidx hscan] at h0
      simp only at h0
      omega
    | none =>
      rw [labelEventV22_timeout prices times eventIdx tpMult slMult timeoutBars
        timeoutSeconds 0 vol hidx hscan]
      norm_num
  · rw [labelEventV22_skip prices times eventIdx tpMult slMult timeoutBars
      timeoutSeconds 0 vol hidx]

/-- Witness for C9: a two-bar series whose second price differs from the
entry by 50 but stays inside the barriers, with side 0, times out with
return exactly 0. -/
theorem C9_both_timeout_zero_return_witness :
    (labelEventV22 [100, 150] [0, 1] 0 1000 1000 1 100 0 1).ret = 0 :=
  C9_both_timeout_zero_return [100, 150] [0, 1] 0 1000 1000 1 100 1
    (by norm_num [labelEventV22, scanFrom, checkBarV22])

/-- C5: the volatility estimator maps the empty return series to the
empty series; on any return series it produces a series of equal length
whose underlying variance satisfies var[0] = returns[0]² and
var[t] = a·var[t−1] + (1−a)·returns[t]², and whose entries are the square
root of the variance entries (for the parametric square-root function). -/
theorem C5_ewma_volatility (sqrtFn : ℚ → ℚ) (returns : List ℚ) (a : ℚ) :
    calculateEwmaVolatility sqrtFn [] a = [] ∧
    (calculateEwmaVolatility sqrtFn returns a).length = returns.length ∧
    (returns ≠ [] → (ewmaVar returns a).getD 0 0 = (returns.getD 0 0) ^ 2) ∧
    (∀ t, t + 1 < returns.length →
      (ewmaVar returns a).getD (t + 1) 0 =
        a * (ewmaVar returns a).getD t 0 + (1 - a) * (returns.getD (t + 1) 0) ^ 2) ∧
    (∀ t, t < returns.length →
      (calculateEwmaVolatility sqrtFn returns a).getD t 0 =
        sqrtFn ((ewmaVar returns a).getD t 0)) := by
  refine ⟨rfl, ?_, ?_, ?_, ?_⟩
  · simp [calculateEwmaVolatility, ewmaVar_length]
  · intro hne
    cases returns with
    | nil => exact absurd rfl hne
    | cons r rest => rfl
  · intro t ht
    exact ewmaVar_getD_succ a returns t ht
  · intro t ht
    have hlen : t < (ewmaVar returns a).length := by
      rw [ewmaVar_length]; exact ht
    exact getD_map_lt sqrtFn 0 0 (ewmaVar returns a) t hlen

/-- Witness for C5 on returns [2, 3] with a = 1/2 and the identity in
place of the square root: var[0] = 4, var[1] = (1/2)·4 + (1/2)·9. -/
theorem C5_ewma_volatility_witness :
    (ewmaVar [2, 3] (1/2)).getD 0 0 = (([2, 3] : List ℚ).getD 0 0) ^ 2 ∧
    (ewmaVar [2, 3] (1/2)).getD 1 0 =
      (1/2) * (ewmaVar [2, 3] (1/2)).getD 0 0 +
        (1 - 1/2) * (([2, 3] : List ℚ).getD 1 0) ^ 2 ∧
    (calculateEwmaVolatility id [2, 3] (1/2)).getD 1 0 =
      id ((ewmaVar [2, 3] (1/2)).getD 1 0) := by
  obtain ⟨-, -, h3, h4, h5⟩ := C5_ewma_volatility id [2, 3] (1/2)
  exact ⟨h3 (by simp), h4 0 (by norm_num), h5 1 (by norm_num)⟩

/-- C6 counterexample: with EWMA volatility series [1, 3], lookback 20 and
event index 1 (an index below the lookback), the code averages the series
over indices 0..1 inclusive and yields 2, whereas the claimed window
max(0, 1−20)..0 yields 1. -/
theorem C6_lookback_window_cex :
    eventVolatility [1, 3] 20 1 = 2 ∧ eventVolatilitySpec [1, 3] 20 1 = 1 ∧
      eventVolatility [1, 3] 20 1 ≠ eventVolatilitySpec [1, 3] 20 1 := by
  refine ⟨?_, ?_, ?_⟩ <;>
    norm_num [eventVolatility, eventVolatilitySpec, sliceMean, npMean]

/-- C6 amended: for an event at index i with lookback L, the volatility
selected by run() is the mean of the EWMA volatility series over indices
i−L .. i−1 when i ≥ L; over indices 0 .. i INCLUSIVE (including the
event's own index) when 0 < i < L; and the default constant 0.01 when
i = 0 (for any positive lookback). -/
theorem C6_amended_event_volatility (v : List ℚ) (L idx : ℕ) :
    (L ≤ idx → idx ≤ v.length →
      eventVolatility v L idx =
        npMean ((List.range L).map fun t => v.getD (idx - L + t) 0)) ∧
    (0 < idx → idx < L → idx + 1 ≤ v.length →
      eventVolatility v L idx =
        npMean ((List.range (idx + 1)).map fun t => v.getD t 0)) ∧
    (0 < L → eventVolatility v L 0 = 1 / 100) := by
  refine ⟨?_, ?_, ?_⟩
  · intro hL hlen
    unfold eventVolatility
    rw [if_pos hL]
    unfold sliceMean
    have hsub : idx - (idx - L) = L := by omega
    rw [hsub, drop_take_eq_map_range L (idx - L) v (by omega)]
  · intro h0 hL hlen
    unfold eventVolatility
    rw [if_neg (by omega), if_pos h0]
    unfold sliceMean
    have hsub : idx + 1 - 0 = idx + 1 := by omega
    rw [hsub, drop_take_eq_map_range (idx + 1) 0 v (by omega)]
    simp
  · intro hL
    unfold eventVolatility
    rw [if_neg (by omega)]
    simp

/-- Witness for C6 amended on the series [1, 2, 3, 4]: index 3 with
lookback 2 averages indices 1..2; index 1 with lookback 3 averages indices
0..1; index 0 with lookback 2 takes the default. -/
theorem C6_amended_event_volatility_witness :
    eventVolatility [1, 2, 3, 4] 2 3 =
      npMean ((List.range 2).map fun t => ([1, 2, 3, 4] : List ℚ).getD (3 - 2 + t) 0) ∧
    eventVolatility [1, 2, 3, 4] 3 1 =
      npMean ((List.range (1 + 1)).map fun t => ([1, 2, 3, 4] : List ℚ).getD t 0) ∧
    eventVolatility [1, 2, 3, 4] 2 0 = 1 / 100 := by
  refine ⟨(C6_amended_event_volatility [1, 2, 3, 4] 2 3).1 (by norm_num) (by norm_num),
    (C6_amended_event_volatility [1, 2, 3, 4] 3 1).2.1 (by norm_num) (by norm_num) (by norm_num),
    (C6_amended_event_volatility [1, 2, 3, 4] 2 0).2.2 (by norm_num)⟩

/-- C7: every result row of the v2.2 bar-level kernel satisfies label
consistency (label 1 iff hit type TP, label −1 iff hit type SL, label 0
iff hit type timeout), and the tick-slice enhancement step preserves label
consistency on every row it touches. -/
theorem C7_label_consistency :
    (∀ (prices : List ℚ) (times : List ℤ) (eventIdx : ℕ) (tpMult slMult : ℚ)
        (timeoutBars : ℕ) (timeoutSeconds : ℤ) (side : ℤ) (vol : ℚ),
      labelConsistent (labelEventV22 prices times eventIdx tpMult slMult
        timeoutBars timeoutSeconds side vol)) ∧
    (∀ (r : EventResult) (slice : Option (List Tick)) (e tpM slM : ℚ)
        (side : ℤ) (vol : ℚ),
      labelConsistent r →
        labelConsistent (enhanceEvent r slice e tpM slM side vol)) := by
  constructor
  · intro prices times eventIdx tpMult slMult timeoutBars timeoutSeconds side vol
    by_cases hidx : eventIdx + 1 < prices.length
    · cases hscan : scanFrom prices times
          (times.getD eventIdx 0 + timeoutSeconds * 1000000000)
          (checkBarV22 (prices.getD eventIdx 0) (tpMult * vol) (slMult * vol) side)
          (eventIdx + 1) (min (eventIdx + timeoutBars) (prices.length - 1) - eventIdx) with
      | some v =>
        obtain ⟨t, hb, ep, s⟩ := v
        obtain ⟨-, -, -, hchk, -⟩ :=
          scanFrom_some_spec prices times _ _ _ _ _ _ _ _ hscan
        obtain ⟨hrange, -, -⟩ := checkBarV22_some _ _ _ _ _ _ _ _ hchk
        rw [labelEventV22_hit prices times eventIdx tpMult slMult timeoutBars
          timeoutSeconds side vol t hb ep s hidx hscan]
        rcases hrange with rfl | rfl <;> simp [labelConsistent]
      | none =>
        rw [labelEventV22_timeout prices times eventIdx tpMult slMult timeoutBars
          timeoutSeconds side vol hidx hscan]
        simp [labelConsistent]
    · rw [labelEventV22_skip prices times eventIdx tpMult slMult timeoutBars
        timeoutSeconds side vol hidx]
      simp [labelConsistent]
  · intro r slice e tpM slM side vol hr
    cases slice with
    | none =>
      rw [enhanceEvent_none]; exact hr
    | some ticks =>
      by_cases hlen : ticks.length = 0
      · have hnil : ticks = [] := List.length_eq_zero.mp hlen
        subst hnil
        rw [enhanceEvent_nil]; exact hr
      · by_cases hs : side = 1 ∨ side = -1
        · by_cases hfh : (firstHitDetection e
              (if side = 1 then e + tpM * vol else e - tpM * vol)
              (if side = 1 then e - slM * vol else e + slM * vol) side
              (ticks.map fun tk => (tk.mid, tk.ts))).1 = 0
          · rw [enhanceEvent_no_hit r ticks e tpM slM side vol hfh]; exact hr
          · rw [enhanceEvent_hit r ticks e tpM slM side vol hlen hs hfh]
            rcases firstHitDetection_range e
                (if side = 1 then e + tpM * vol else e - tpM * vol)
                (if side = 1 then e - slM * vol else e + slM * vol) side
                (ticks.map fun tk => (tk.mid, tk.ts)) with h0 | h1 | hm1
            · exact absurd h0 hfh
            · simp [labelConsistent, h1]
            · simp [labelConsistent, hm1]
        · rw [enhanceEvent_other_side r ticks e tpM slM side vol hs]; exact hr

/-- Witness for C7: a concrete TP-hit event is label-consistent, and
enhancing a consistent row with no tick slice keeps it consistent. -/
theorem C7_label_consistency_witness :
    labelConsistent (labelEventV22 [100, 101, 103] [0, 1, 2] 0 2 2 5 1000 1 1) ∧
    labelConsistent (enhanceEvent
      { ret := 0, label := 0, exitPrice := 100, exitTime := 0, hitType := 0, vol := 1 }
      none 100 1 1 1 1) := by
  exact ⟨C7_label_consistency.1 [100, 101, 103] [0, 1, 2] 0 2 2 5 1000 1 1,
    C7_label_consistency.2 _ none 100 1 1 1 1 (by norm_num [labelConsistent])⟩

/-- C8: events whose tick slice is missing or failed to load are absent
from the loaded slice map and their bar-level rows pass through the
enhancement unchanged; events whose slice contains no tick satisfying a
barrier condition keep their bar-level row; and the batch enhancement
always returns exactly one row per input row (no event aborts the batch). -/
theorem C8_missing_slice_resilience :
    (∀ (fetch : ℕ → Option (List Tick)) (ids : List ℕ) (eid : ℕ),
      fetch eid = none → (loadTickSlices fetch ids).lookup eid = none) ∧
    (∀ (r : EventResult) (e tpM slM : ℚ) (side : ℤ) (vol : ℚ),
      enhanceEvent r none e tpM slM side vol = r) ∧
    (∀ (r : EventResult) (ticks : List Tick) (e tpM slM : ℚ) (side : ℤ) (vol : ℚ),
      (firstHitDetection e (if side = 1 then e + tpM * vol else e - tpM * vol)
          (if side = 1 then e - slM * vol else e + slM * vol) side
          (ticks.map fun tk => (tk.mid, tk.ts))).1 = 0 →
        enhanceEvent r (some ticks) e tpM slM side vol = r) ∧
    (∀ (slices : List (ℕ × List Tick)) (barPrices : List ℚ) (tpM slM : ℚ)
        (side : ℤ) (results : List EventResult) (idxs : List ℕ) (vols : List ℚ),
      (enhanceWithTickSlices slices barPrices tpM slM side results idxs vols).length =
        results.length) ∧
    (∀ (slices : List (ℕ × List Tick)) (barPrices : List ℚ) (tpM slM : ℚ)
        (side : ℤ) (results : List EventResult) (idxs : List ℕ) (vols : List ℚ)
        (i : ℕ) (d : EventResult),
      i < results.length → i < idxs.length →
      slices.lookup (idxs.getD i 0) = none →
      (enhanceWithTickSlices slices barPrices tpM slM side results idxs vols).getD i d =
        results.getD i d) := by
  refine ⟨?_, ?_, ?_, ?_, ?_⟩
  · intro fetch ids eid hf
    exact loadTickSlices_lookup_none fetch eid hf ids
  · intro r e tpM slM side vol
    exact enhanceEvent_none r e tpM slM side vol
  · intro r ticks e tpM slM side vol hfh
    exact enhanceEvent_no_hit r ticks e tpM slM side vol hfh
  · intro slices barPrices tpM slM side results idxs vols
    exact enhanceWithTickSlices_length slices barPrices tpM slM side results idxs vols
  · intro slices barPrices tpM slM side results idxs vols i d hi hj hnone
    rw [enhanceWithTickSlices_getD slices barPrices tpM slM side results idxs vols
      i d hi hj, hnone]
    rfl

/-- Witness for C8: an always-failing fetch loads nothing and the lookup
misses; a row passes through unchanged with no slice, with a slice whose
single tick crosses no barrier, and through a batch with no loaded slices. -/
theorem C8_missing_slice_resilience_witness :
    (loadTickSlices (fun _ => none) [0, 1]).lookup 0 = none ∧
    enhanceEvent
      { ret := 0, label := 0, exitPrice := 100, exitTime := 0, hitType := 0, vol := 1 }
      none 100 1 1 1 1 =
      { ret := 0, label := 0, exitPrice := 100, exitTime := 0, hitType := 0, vol := 1 } ∧
    enhanceEvent
      { ret := 0, label := 0, exitPrice := 100, exitTime := 0, hitType := 0, vol := 1 }
      (some [{ ts := 3, bid := 100, ask := 100, mid := 100 }]) 100 1 1 1 1 =
      { ret := 0, label := 0, exitPrice := 100, exitTime := 0, hitType := 0, vol := 1 } ∧
    (enhanceWithTickSlices [] [100] 1 1 1
      [{ ret := 0, label := 0, exitPrice := 100, exitTime := 0, hitType := 0, vol := 1 }]
      [0] [1]).length =
      [({ ret := 0, label := 0, exitPrice := 100, exitTime := 0, hitType := 0, vol := 1 } :
        EventResult)].length ∧
    (enhanceWithTickSlices [] [100] 1 1 1
      [{ ret := 0, label := 0, exitPrice := 100, exitTime := 0, hitType := 0, vol := 1 }]
      [0] [1]).getD 0
      { ret := 0, label := 0, exitPrice := 0, exitTime := 0, hitType := 0, vol := 0 } =
      [({ ret := 0, label := 0, exitPrice := 100, exitTime := 0, hitType := 0, vol := 1 } :
        EventResult)].getD 0
        { ret := 0, label := 0, exitPrice := 0, exitTime := 0, hitType := 0, vol := 0 } := by
  refine ⟨C8_missing_slice_resilience.1 (fun _ => none) [0, 1] 0 rfl,
    C8_missing_slice_resilience.2.1 _ 100 1 1 1 1,
    C8_missing_slice_resilience.2.2.1 _ _ 100 1 1 1 1
      (by norm_num [firstHitDetection, tickCheckV22]),
    C8_missing_slice_resilience.2.2.2.1 [] [100] 1 1 1 _ [0] [1],
    C8_missing_slice_resilience.2.2.2.2 [] [100] 1 1 1 _ [0] [1] 0 _
      (by norm_num) (by norm_num) rfl⟩

/-- C2 counterexample: the v2.2 tick refiner receives only the mid price
column of the tick slice.  A long event with entry 100, TP multiple 3 and
volatility 1 has TP level 103; the slice's only tick has ask 104 — the ask
crosses the TP level, so a refiner that evaluates the TP condition against
the ask would resolve TP on this first tick — but its mid is 102, so the
enhancement finds no hit and leaves the bar-level row unchanged. -/
theorem C2_refiner_ignores_ask_cex :
    ((100 : ℚ) + 3 * 1 ≤ 104) ∧
    enhanceEvent
      { ret := 0, label := 0, exitPrice := 100, exitTime := 7, hitType := 0, vol := 1 }
      (some [{ ts := 5, bid := 101, ask := 104, mid := 102 }]) 100 3 50 1 1 =
      { ret := 0, label := 0, exitPrice := 100, exitTime := 7, hitType := 0, vol := 1 } := by
  constructor
  · norm_num
  · norm_num [enhanceEvent, firstHitDetection, tickCheckV22]

/-- C2 amended: the v2.2 tick refiner evaluates both the TP and the SL
condition against the tick's mid price for both sides (long: TP when
mid ≥ tp, SL when mid ≤ sl; short: TP when mid ≤ tp, SL when mid ≥ sl),
and for every side the first tick in sequence whose mid satisfies a
condition determines the outcome; it is the v2.1 kernel that evaluates the
TP condition against the ask and the SL condition against the bid for long
(mirrored for short), again with the first tick in sequence winning. -/
theorem C2_amended_tick_policy :
    (∀ (ticks : List Tick) (e tp sl : ℚ) (side : ℤ) (k : ℕ) (hb : ℤ),
      k < ticks.length →
      (∀ j, j < k → tickCheckV22 tp sl side
        ((ticks.getD j { ts := 0, bid := 0, ask := 0, mid := 0 }).mid) = none) →
      tickCheckV22 tp sl side
        ((ticks.getD k { ts := 0, bid := 0, ask := 0, mid := 0 }).mid) = some hb →
      firstHitDetection e tp sl side (ticks.map fun tk => (tk.mid, tk.ts)) =
        (hb, if hb = 1 then tp else sl,
          (ticks.getD k { ts := 0, bid := 0, ask := 0, mid := 0 }).ts)) ∧
    (∀ (tp sl p : ℚ),
      (tickCheckV22 tp sl 1 p = some 1 ↔ tp ≤ p) ∧
      (tickCheckV22 tp sl 1 p = some (-1) ↔ p < tp ∧ p ≤ sl) ∧
      (tickCheckV22 tp sl (-1) p = some 1 ↔ p ≤ tp) ∧
      (tickCheckV22 tp sl (-1) p = some (-1) ↔ tp < p ∧ sl ≤ p)) ∧
    (∀ (tp sl bid ask : ℚ),
      (tickCheckV21 tp sl 1 bid ask = some 1 ↔ tp ≤ ask) ∧
      (tickCheckV21 tp sl 1 bid ask = some (-1) ↔ ask < tp ∧ bid ≤ sl) ∧
      (tickCheckV21 tp sl (-1) bid ask = some 1 ↔ bid ≤ tp) ∧
      (tickCheckV21 tp sl (-1) bid ask = some (-1) ↔ tp < bid ∧ sl ≤ ask)) ∧
    (∀ (tp sl : ℚ) (side : ℤ) (ticks : List (ℚ × ℚ)) (k : ℕ) (hb : ℤ),
      k < ticks.length →
      (∀ j, j < k → tickCheckV21 tp sl side (ticks.getD j (0, 0)).1
        (ticks.getD j (0, 0)).2 = none) →
      tickCheckV21 tp sl side (ticks.getD k (0, 0)).1
        (ticks.getD k (0, 0)).2 = some hb →
      firstHitV21 tp sl side ticks = some hb) := by
  refine ⟨?_, ?_, ?_, ?_⟩
  · intro ticks e tp sl side k hb hk hnone hsome
    have hmap : ∀ j, j < ticks.length →
        (ticks.map fun tk => (tk.mid, tk.ts)).getD j (0, 0) =
          ((ticks.getD j { ts := 0, bid := 0, ask := 0, mid := 0 }).mid,
           (ticks.getD j { ts := 0, bid := 0, ask := 0, mid := 0 }).ts) := by
      intro j hj
      simpa using getD_map_lt (fun tk : Tick => (tk.mid, tk.ts))
        ({ ts := 0, bid := 0, ask := 0, mid := 0 } : Tick) (0, 0) ticks j hj
    have hlen2 : k < (ticks.map fun tk => (tk.mid, tk.ts)).length := by
      simpa using hk
    have hres := firstHit_first_spec e tp sl side (ticks.map fun tk => (tk.mid, tk.ts))
      k hb hlen2 ?_ ?_
    · rw [hres, hmap k hk]
    · intro j hj
      rw [hmap j (lt_trans hj hk)]
      exact hnone j hj
    · rw [hmap k hk]
      exact hsome
  · intro tp sl p
    unfold tickCheckV22
    refine ⟨?_, ?_, ?_, ?_⟩ <;> (split_ifs <;> simp_all)
  · intro tp sl bid ask
    unfold tickCheckV21
    refine ⟨?_, ?_, ?_, ?_⟩ <;> (split_ifs <;> simp_all)
  · intro tp sl side ticks k hb hk hnone hsome
    exact firstHitV21_first_spec tp sl side ticks k hb hk hnone hsome

/-- Witness for C2 amended: a one-tick slice with mid 103 fires long TP at
level 102 in the v2.2 refiner, and a one-tick slice with mid 97 fires
short TP at level 98; the iff characterizations instantiated at concrete
prices for long and short; and the v2.1 inner loop fires TP on a tick
whose ask 103 crosses level 102. -/
theorem C2_amended_tick_policy_witness :
    firstHitDetection 100 102 90 1
      (([{ ts := 5, bid := 101, ask := 104, mid := 103 }] : List Tick).map
        fun tk => (tk.mid, tk.ts)) =
      (1, if (1 : ℤ) = 1 then (102 : ℚ) else 90,
        (([{ ts := 5, bid := 101, ask := 104, mid := 103 }] : List Tick).getD 0
          { ts := 0, bid := 0, ask := 0, mid := 0 }).ts) ∧
    firstHitDetection 100 98 110 (-1)
      (([{ ts := 6, bid := 96, ask := 98, mid := 97 }] : List Tick).map
        fun tk => (tk.mid, tk.ts)) =
      (1, if (1 : ℤ) = 1 then (98 : ℚ) else 110,
        (([{ ts := 6, bid := 96, ask := 98, mid := 97 }] : List Tick).getD 0
          { ts := 0, bid := 0, ask := 0, mid := 0 }).ts) ∧
    (tickCheckV22 102 90 1 103 = some 1 ↔ (102 : ℚ) ≤ 103) ∧
    (tickCheckV22 98 110 (-1) 97 = some 1 ↔ (97 : ℚ) ≤ 98) ∧
    (tickCheckV21 102 98 1 101 103 = some 1 ↔ (102 : ℚ) ≤ 103) ∧
    firstHitV21 102 98 1 [(101, 103)] = some 1 := by
  refine ⟨?_, ?_, ?_, ?_, ?_, ?_⟩
  · exact C2_amended_tick_policy.1 [{ ts := 5, bid := 101, ask := 104, mid := 103 }]
      100 102 90 1 0 1 (by norm_num)
      (fun j hj => absurd hj (Nat.not_lt_zero j))
      (by norm_num [tickCheckV22])
  · exact C2_amended_tick_policy.1 [{ ts := 6, bid := 96, ask := 98, mid := 97 }]
      100 98 110 (-1) 0 1 (by norm_num)
      (fun j hj => absurd hj (Nat.not_lt_zero j))
      (by norm_num [tickCheckV22])
  · exact (C2_amended_tick_policy.2.1 102 90 103).1
  · exact (C2_amended_tick_policy.2.1 98 110 97).2.2.1
  · exact (C2_amended_tick_policy.2.2.1 102 98 101 103).1
  · exact C2_amended_tick_policy.2.2.2 102 98 1 [(101, 103)] 0 1 (by norm_num)
      (fun j hj => absurd hj (Nat.not_lt_zero j))
      (by norm_num [tickCheckV21])

/-- C10: wherever a TP or SL hit is resolved, the recorded exit price is
exactly the computed barrier level, never the observed bar or tick price
that crossed it: the per-bar check returns the barrier of the resolved
side and hit type; a hit event of the v2.2 kernel records a barrier level
as exit price and its return is the signed difference of that exit price
and the entry price divided by the entry price; the v2.2 tick refiner
returns the TP level on a TP hit and the SL level on an SL hit; and the
v2.1 kernel records return (barrier − entry) / entry for its hits. -/
theorem C10_exit_price_is_barrier :
    (∀ (e td sd : ℚ) (side : ℤ) (p : ℚ) (hb : ℤ) (ep : ℚ) (s : ℤ),
      checkBarV22 e td sd side p = some (hb, ep, s) →
      ep = if hb = 1 then (if s = 1 then e + td else e - td)
           else (if s = 1 then e - sd else e + sd)) ∧
    (∀ (prices : List ℚ) (times : List ℤ) (eventIdx : ℕ) (tpMult slMult : ℚ)
        (timeoutBars : ℕ) (timeoutSeconds : ℤ) (side : ℤ) (vol : ℚ),
      (labelEventV22 prices times eventIdx tpMult slMult timeoutBars
          timeoutSeconds side vol).hitType ≠ 0 →
      ((labelEventV22 prices times eventIdx tpMult slMult timeoutBars
          timeoutSeconds side vol).hitType = 1 →
        (labelEventV22 prices times eventIdx tpMult slMult timeoutBars
            timeoutSeconds side vol).exitPrice = prices.getD eventIdx 0 + tpMult * vol ∨
        (labelEventV22 prices times eventIdx tpMult slMult timeoutBars
            timeoutSeconds side vol).exitPrice = prices.getD eventIdx 0 - tpMult * vol) ∧
      ((labelEventV22 prices times eventIdx tpMult slMult timeoutBars
          timeoutSeconds side vol).hitType = -1 →
        (labelEventV22 prices times eventIdx tpMult slMult timeoutBars
            timeoutSeconds side vol).exitPrice = prices.getD eventIdx 0 - slMult * vol ∨
        (labelEventV22 prices times eventIdx tpMult slMult timeoutBars
            timeoutSeconds side vol).exitPrice = prices.getD eventIdx 0 + slMult * vol) ∧
      ((labelEventV22 prices times eventIdx tpMult slMult timeoutBars
          timeoutSeconds side vol).ret =
          ((labelEventV22 prices times eventIdx tpMult slMult timeoutBars
            timeoutSeconds side vol).exitPrice - prices.getD eventIdx 0) /
            prices.getD eventIdx 0 ∨
        (labelEventV22 prices times eventIdx tpMult slMult timeoutBars
          timeoutSeconds side vol).ret =
          (prices.getD eventIdx 0 - (labelEventV22 prices times eventIdx tpMult slMult
            timeoutBars timeoutSeconds side vol).exitPrice) / prices.getD eventIdx 0)) ∧
    (∀ (e tp sl : ℚ) (side : ℤ) (ticks : List (ℚ × ℤ)),
      ((firstHitDetection e tp sl side ticks).1 = 1 →
        (firstHitDetection e tp sl side ticks).2.1 = tp) ∧
      ((firstHitDetection e tp sl side ticks).1 = -1 →
        (firstHitDetection e tp sl side ticks).2.1 = sl)) ∧
    (∀ (highs lows : List ℚ) (slices : List (List (ℚ × ℚ))) (entryTime : ℕ)
        (pt slv : ℚ) (timeoutBars : ℕ) (side : ℤ),
      ((labelEventV21 highs lows slices entryTime pt slv timeoutBars side).2.1 = 1 →
        (labelEventV21 highs lows slices entryTime pt slv timeoutBars side).1 =
          ((if side = 1
            then (highs.getD entryTime 0 + lows.getD entryTime 0) / 2 + pt
            else (highs.getD entryTime 0 + lows.getD entryTime 0) / 2 - pt) -
            (highs.getD entryTime 0 + lows.getD entryTime 0) / 2) /
            ((highs.getD entryTime 0 + lows.getD entryTime 0) / 2)) ∧
      ((labelEventV21 highs lows slices entryTime pt slv timeoutBars side).2.1 = -1 →
        (labelEventV21 highs lows slices entryTime pt slv timeoutBars side).1 =
          ((if side = 1
            then (highs.getD entryTime 0 + lows.getD entryTime 0) / 2 - slv
            else (highs.getD entryTime 0 + lows.getD entryTime 0) / 2 + slv) -
            (highs.getD entryTime 0 + lows.getD entryTime 0) / 2) /
            ((highs.getD entryTime 0 + lows.getD entryTime 0) / 2))) := by
  refine ⟨?_, ?_, ?_, ?_⟩
  · intro e td sd side p hb ep s hc
    exact (checkBarV22_some e td sd side p hb ep s hc).2.2
  · intro prices times eventIdx tpMult slMult timeoutBars timeoutSeconds side vol hne
    by_cases hidx : eventIdx + 1 < prices.length
    · cases hscan : scanFrom prices times
          (times.getD eventIdx 0 + timeoutSeconds * 1000000000)
          (checkBarV22 (prices.getD eventIdx 0) (tpMult * vol) (slMult * vol) side)
          (eventIdx + 1) (min (eventIdx + timeoutBars) (prices.length - 1) - eventIdx) with
      | some v =>
        obtain ⟨t, hb, ep, s⟩ := v
        obtain ⟨-, -, -, hchk, -⟩ :=
          scanFrom_some_spec prices times _ _ _ _ _ _ _ _ hscan
        obtain ⟨hrange, hsrange, hep⟩ := checkBarV22_some _ _ _ _ _ _ _ _ hchk
        rw [labelEventV22_hit prices times eventIdx tpMult slMult timeoutBars
          timeoutSeconds side vol t hb ep s hidx hscan]
        simp only
        refine ⟨?_, ?_, ?_⟩
        · intro hb1
          subst hb1
          rcases hsrange with rfl | rfl <;> simp_all
        · intro hbm1
          subst hbm1
          rcases hsrange with rfl | rfl <;> simp_all
        · rcases hsrange with rfl | rfl <;> simp
      | none =>
        rw [labelEventV22_timeout prices times eventIdx tpMult slMult timeoutBars
          timeoutSeconds side vol hidx hscan] at hne
        exact absurd rfl hne
    · rw [labelEventV22_skip prices times eventIdx tpMult slMult timeoutBars
        timeoutSeconds side vol hidx] at hne
      exact absurd rfl hne
  · intro e tp sl side ticks
    exact firstHitDetection_exit e tp sl side ticks
  · intro highs lows slices entryTime pt slv timeoutBars side
    simp only [labelEventV21]
    split
    · rename_i hb t heq
      by_cases hhb : hb = 1
      · subst hhb
        simp
      · rw [if_neg hhb]
        constructor
        · intro h1; simp at h1
        · intro; rfl
    · constructor
      · intro h1; simp at h1
      · intro h1; simp at h1

/-- Witness for C10: the bar check at price 103 returns the TP barrier
102; a concrete TP-hit event records exit price entry + tp_mult·vol; the
tick refiner returns the TP level 102 on a hit; and a concrete v2.1 TP
hit records return (102 − 100) / 100 = 1/50. -/
theorem C10_exit_price_is_barrier_witness :
    ((102 : ℚ) = if (1 : ℤ) = 1 then (if (1 : ℤ) = 1 then (100 : ℚ) + 2 else 100 - 2)
      else (if (1 : ℤ) = 1 then (100 : ℚ) - 2 else 100 + 2)) ∧
    ((labelEventV22 [100, 101, 103] [0, 1, 2] 0 2 2 5 1000 1 1).exitPrice =
        ([100, 101, 103] : List ℚ).getD 0 0 + 2 * 1 ∨
      (labelEventV22 [100, 101, 103] [0, 1, 2] 0 2 2 5 1000 1 1).exitPrice =
        ([100, 101, 103] : List ℚ).getD 0 0 - 2 * 1) ∧
    (firstHitDetection 100 102 98 1 [(103, 7)]).2.1 = 102 ∧
    (labelEventV21 [101, 104] [99, 100] [[], [(101, 103)]] 0 2 2 5 1).1 = 1 / 50 := by
  refine ⟨?_, ?_, ?_, ?_⟩
  · exact C10_exit_price_is_barrier.1 100 2 2 1 103 1 102 1 (by norm_num [checkBarV22])
  · exact (C10_exit_price_is_barrier.2.1 [100, 101, 103] [0, 1, 2] 0 2 2 5 1000 1 1
      (by norm_num [labelEventV22, scanFrom, checkBarV22])).1
      (by norm_num [labelEventV22, scanFrom, checkBarV22])
  · exact (C10_exit_price_is_barrier.2.2.1 100 102 98 1 [(103, 7)]).1
      (by norm_num [firstHitDetection, tickCheckV22])
  · have h := (C10_exit_price_is_barrier.2.2.2 [101, 104] [99, 100]
      [[], [(101, 103)]] 0 2 2 5 1).1
      (by norm_num [labelEventV21, v21Scan, firstHitV21, tickCheckV21])
    rw [h]
    norm_num

end FinPattern
